import Mathlib

/-!
Verification of the networked-entity authorization and synchronization core
(`authorizeOrSanitizeMessage` and its helpers) of the jel-mpl client.

The JavaScript source is shallowly embedded: JS objects holding sparse
component maps become association lists from index strings to `Option V`
values (`none` models the JS `null` marker), the presence directory, the
pending-creation table and the materialized-entity table become functions
into `Option`, the module-level `persistentSyncs` stash becomes an explicit
`Stash` value threaded through the operations, and code paths that can raise
a runtime `TypeError` (sanitizing a template with no registered schema)
return the `exn` constructor of `JSResult`, which carries the mutable state
as it stood when the exception escaped.

Component-slot values are kept abstract in the type parameter `V`; concrete
evaluations instantiate `V := Nat`.
-/

namespace JelMpl

/-- Sender permission set, as read from `presenceState.metas[0].permissions`.
JS truthiness of an absent capability field is modelled by `false`. -/
structure Permissions where
  spawn_and_move_media : Bool
  spawn_camera : Bool
  spawn_drawing : Bool
deriving DecidableEq, Repr

/-- Entity metadata `{ template, creator }` as produced by
`getPendingOrExistingEntityMetadata`. -/
structure EntityMeta where
  template : String
  creator : String
deriving DecidableEq, Repr

/-- A pending-creation record, as returned by
`NAF.connection.adapter.getPendingDataForNetworkId`: template and creator,
plus an optional owning session. -/
structure PendingData where
  template : String
  creator : String
  owner : Option String
deriving DecidableEq, Repr

/-- One entry of a NAF schema's `components` list: either a bare component
name or a `{component, property}` pair. -/
inductive SchemaComp where
  | full (component : String)
  | withProp (component : String) (property : String)
deriving DecidableEq, Repr

/-- A NAF schema as found in `NAF.schemas.schemaDict`: the ordered component
slots and the subset flagged `nonAuthorizedComponents`
(`schema.nonAuthorizedComponents || []` is modelled by the list being
possibly empty). -/
structure NafSchema where
  components : List SchemaComp
  nonAuthorizedComponents : List SchemaComp
deriving DecidableEq, Repr

/-- A per-entity update payload: `networkId`, the `persistent` and
`isFirstSync` flags, the sparse `components` map (slot-index string to value,
where `none` is the JS `null` marker), and the remaining top-level fields
(`owner`, `lastOwnerTime`, ... ) kept generically as `other`. -/
structure EntityData (V : Type) where
  networkId : String
  persistent : Bool
  isFirstSync : Bool
  components : List (String × Option V)
  other : List (String × V)
deriving DecidableEq, Repr

/-- The `data` field of an inbound message.  JS duck-types it: for `"u"` and
`"r"` messages the entity-update fields are read off `data` itself (the
`entry` projection here), while `"um"` messages read the list `data.d`. -/
structure MessageData (V : Type) where
  entry : EntityData V
  d : List (EntityData V)
deriving DecidableEq, Repr

/-- An inbound message `{dataType, data, from_session_id, clientId}`. -/
structure Message (V : Type) where
  dataType : String
  from_session_id : String
  clientId : String
  data : MessageData V
deriving DecidableEq, Repr

/-- The read-only world state consumed by the gate: the static
`NAF.schemas.schemaDict`, the pending-creation table, the materialized-entity
table (an entity is represented directly by the `{template, creator}` pair
that `getNetworkedTemplate` / `getCreator` extract from it), and the presence
directory (a session's entry is represented by the permission set read from
`metas[0]`). -/
structure Env where
  schemaDict : List (String × NafSchema)
  pending : String → Option PendingData
  entity : String → Option EntityMeta
  presence : String → Option Permissions

/-- First-match lookup in an association list keyed by strings, modelling a
JS object property read (`undefined` on a missing key becomes `none`). -/
def lookupKey {α : Type} : List (String × α) → String → Option α
  | [], _ => none
  | (k', v) :: rest, k => if k' = k then some v else lookupKey rest k

/-- `target[k] = v` on a JS object: an existing key keeps its position and is
overwritten, a fresh key is appended. -/
def setKey {α : Type} : List (String × α) → String → α → List (String × α)
  | [], k, v => [(k, v)]
  | (k', v') :: rest, k, v =>
      if k' = k then (k, v) :: rest else (k', v') :: setKey rest k v

/-- `Object.assign(target, source)`: each key of the source is written into
the target in order; keys only present in the target survive. -/
def objAssign {α : Type} : List (String × α) → List (String × α) → List (String × α)
  | cur, [] => cur
  | cur, (k, v) :: rest => objAssign (setKey cur k v) rest

/-- `Array.prototype.findIndex`: index of the first element satisfying the
predicate, `-1` when there is none. -/
def findIndexJS {α : Type} (p : α → Bool) : List α → Int
  | [] => -1
  | a :: rest =>
      if p a then 0
      else
        let r := findIndexJS p rest
        if r < 0 then -1 else r + 1

/-- `String.prototype.endsWith`, as a suffix test on the character lists. -/
def endsWithJS (s pat : String) : Bool :=
  decide (pat.data <:+ s.data)

/-- `indexForComponent(component, schema)`: position of a non-authorized
component descriptor inside the schema's `components` list.  A bare name only
matches a bare schema slot (JS `===` between a string and an object is
false), a `{component, property}` pair only matches an object slot with both
fields equal (a string slot has `undefined` fields). -/
def indexForComponent (c : SchemaComp) (schema : NafSchema) : Int :=
  match c with
  | .full name =>
      findIndexJS
        (fun sc => match sc with
          | .full n => n == name
          | .withProp _ _ => false)
        schema.components
  | .withProp cname pname =>
      findIndexJS
        (fun sc => match sc with
          | .full _ => false
          | .withProp c' p' => c' == cname && p' == pname)
        schema.components

/-- `initializeNonAuthorizedSchemas`: template name to the stringified
indices of its non-authorized (safe) component slots.  The lazy null-sentinel
in the source only controls when this is computed from the static
`schemaDict`, never what it computes, so the embedding computes it where it
is used. -/
def initNonAuthorizedSchemas (schemaDict : List (String × NafSchema)) :
    List (String × List String) :=
  schemaDict.map fun ts =>
    (ts.1, ts.2.nonAuthorizedComponents.map fun c => toString (indexForComponent c ts.2))

/-- `sanitizeMessageData(template, data)`: every component slot present in
the payload whose index string is not in the template's non-authorized list
is overwritten with the `null` marker.  When the template has no entry in the
schema registry, `nonAuthorizedIndices` is `undefined` and the first loop
iteration raises a `TypeError` (`undefined.includes`); with an empty
`components` map the loop body never runs and the payload is returned
untouched. -/
def sanitizeMessageData {V : Type} (schemaDict : List (String × NafSchema))
    (template : String) (data : EntityData V) : Except Unit (EntityData V) :=
  match lookupKey (initNonAuthorizedSchemas schemaDict) template with
  | some nonAuthorizedIndices =>
      .ok { data with
              components :=
                data.components.map fun kv =>
                  (kv.1, if nonAuthorizedIndices.contains kv.1 then kv.2 else none) }
  | none =>
      match data.components with
      | [] => .ok data
      | _ :: _ => .error ()

/-- `authorizeEntityManipulation(entityMetadata, sender, senderPermissions)`:
first-match dispatch on the template-kind suffix. -/
def authorizeEntityManipulation (entityMetadata : EntityMeta) (sender : String)
    (senderPermissions : Permissions) : Bool :=
  let isCreator := sender == entityMetadata.creator
  if endsWithJS entityMetadata.template "-avatar" then isCreator
  else if endsWithJS entityMetadata.template "-media" then
    isCreator || senderPermissions.spawn_and_move_media
  else if endsWithJS entityMetadata.template "-camera" then
    isCreator || senderPermissions.spawn_camera
  else if endsWithJS entityMetadata.template "-pen" || endsWithJS entityMetadata.template "-drawing" then
    isCreator || senderPermissions.spawn_drawing
  else false

/-- `getPendingOrExistingEntityMetadata(networkId)`: a pending-creation
record wins; a pending record whose `owner` session has no presence entry
yields absence (the JS code returns `undefined` there, the plain `null` in
the other absent case — both are modelled by `none`); otherwise fall back to
the materialized entity. -/
def getPendingOrExistingEntityMetadata (env : Env) (networkId : String) :
    Option EntityMeta :=
  match env.pending networkId with
  | some pendingData =>
      match pendingData.owner with
      | some owner =>
          if (env.presence owner).isSome then
            some ⟨pendingData.template, pendingData.creator⟩
          else none
      | none => some ⟨pendingData.template, pendingData.creator⟩
  | none => env.entity networkId

/-- `authorizeOrSanitizeMessageData(data, sender, senderPermissions)`:
`false` (with the payload untouched) when metadata resolution fails, `true`
with the payload kept as-is when the sender is authorized, `true` with the
sanitized payload otherwise; the sanitizer's `TypeError` propagates. -/
def authorizeOrSanitizeMessageData {V : Type} (env : Env) (data : EntityData V)
    (sender : String) (senderPermissions : Permissions) :
    Except Unit (Bool × EntityData V) :=
  match getPendingOrExistingEntityMetadata env data.networkId with
  | none => .ok (false, data)
  | some entityMetadata =>
      if authorizeEntityManipulation entityMetadata sender senderPermissions then
        .ok (true, data)
      else
        match sanitizeMessageData env.schemaDict entityMetadata.template data with
        | .ok data' => .ok (true, data')
        | .error e => .error e

/-- The module-level `persistentSyncs` object: network id to stashed
message. -/
def Stash (V : Type) : Type := String → Option (Message V)

/-- `persistentSyncs[k] = m`. -/
def stashUpdate {V : Type} (s : Stash V) (k : String) (m : Message V) : Stash V :=
  fun j => if j = k then some m else s j

/-- `delete persistentSyncs[k]`. -/
def stashRemove {V : Type} (s : Stash V) (k : String) : Stash V :=
  fun j => if j = k then none else s j

/-- The empty `persistentSyncs` object. -/
def emptyStash {V : Type} : Stash V := fun _ => none

/-- Outcome of a stateful JS call: a return value together with the stash as
the call left it, or an escaped exception together with the stash as it stood
when the exception was raised. -/
inductive JSResult (σ : Type) (α : Type) where
  | ok (value : α) (state : σ)
  | exn (state : σ)

/-- Whether a stateful call completed without raising. -/
def JSResult.isOk {σ α : Type} : JSResult σ α → Bool
  | .ok _ _ => true
  | .exn _ => false

/-- Wrapping a bulk-update entry as the `data` of a synthesized `"u"`
message (the object literal built by `stashPersistentSync`; it has no `d`
field, modelled by the empty list). -/
def entryToMessageData {V : Type} (e : EntityData V) : MessageData V :=
  { entry := e, d := [] }

/-- The in-place merge performed by `stashPersistentSync` on an existing
stash entry: `Object.assign(currentData, entityData)` overwrites every
top-level field the new entry carries (`d`, which the entry never carries,
survives), and then `components` is restored to
`Object.assign(currentComponents, entityData.components)` — the key-wise
merge of the old and new component maps, new keys winning. -/
def stashMerge {V : Type} (cur : MessageData V) (e : EntityData V) : MessageData V :=
  { entry :=
      { networkId := e.networkId
        persistent := e.persistent
        isFirstSync := e.isFirstSync
        components := objAssign cur.entry.components e.components
        other := objAssign cur.entry.other e.other }
    d := cur.d }

/-- `stashPersistentSync(message, entityData)`: create a fresh `"u"` entry on
first arrival for the network id, merge into the existing entry otherwise. -/
def stashPersistentSync {V : Type} (stash : Stash V) (message : Message V)
    (entityData : EntityData V) : Stash V :=
  match stash entityData.networkId with
  | none =>
      stashUpdate stash entityData.networkId
        { dataType := "u"
          from_session_id := message.from_session_id
          clientId := message.clientId
          data := entryToMessageData entityData }
  | some cur =>
      stashUpdate stash entityData.networkId { cur with data := stashMerge cur.data entityData }

/-- The `for (const index in message.data.d)` loop of the `"um"` branch.
Returns the processed slot list (`none` marks an entry that was nulled out in
place), the `stashedAny` and `sanitizedAny` flags, and the stash; a
`TypeError` escaping from the sanitizer aborts the loop with the stash
updates made so far. -/
def umLoop {V : Type} (env : Env) (message : Message V)
    (senderPermissions : Permissions) :
    Stash V → List (EntityData V) →
      JSResult (Stash V) (List (Option (EntityData V)) × Bool × Bool)
  | stash, [] => .ok ([], false, false) stash
  | stash, entityData :: rest =>
      if entityData.persistent && (env.entity entityData.networkId).isNone then
        match umLoop env message senderPermissions
            (stashPersistentSync stash message entityData) rest with
        | .ok (slots, _, sanitizedAny) stash' =>
            .ok (none :: slots, true, sanitizedAny) stash'
        | .exn stash' => .exn stash'
      else
        match authorizeOrSanitizeMessageData env entityData message.from_session_id
            senderPermissions with
        | .error _ => .exn stash
        | .ok (false, _) =>
            match umLoop env message senderPermissions stash rest with
            | .ok (slots, stashedAny, _) stash' =>
                .ok (none :: slots, stashedAny, true) stash'
            | .exn stash' => .exn stash'
        | .ok (true, entityData') =>
            match umLoop env message senderPermissions stash rest with
            | .ok (slots, stashedAny, sanitizedAny) stash' =>
                .ok (some entityData' :: slots, stashedAny, sanitizedAny) stash'
            | .exn stash' => .exn stash'

/-- `authorizeOrSanitizeMessage(message)`.  The returned value is `none` for
the shared `emptyObject` no-op message and `some` of the (possibly mutated)
message otherwise.  The `"um"` branch compacts the entry list with
`filter(x => x != null)` when any slot was nulled; since un-nulled runs of
the loop leave the list without `null` entries, the unconditional
`filterMap id` denotes the final array in either case. -/
def authorizeOrSanitizeMessage {V : Type} (env : Env) (stash : Stash V)
    (message : Message V) : JSResult (Stash V) (Option (Message V)) :=
  if message.dataType == "u" && message.data.entry.isFirstSync
      && !message.data.entry.persistent then
    .ok (some message) stash
  else
    match env.presence message.from_session_id with
    | none => .ok none stash
    | some senderPermissions =>
      if message.dataType == "um" then
        match umLoop env message senderPermissions stash message.data.d with
        | .exn stash' => .exn stash'
        | .ok (slots, _, _) stash' =>
            .ok (some { message with data := { message.data with d := slots.filterMap id } })
              stash'
      else if message.dataType == "u" then
        if message.data.entry.persistent
            && (env.entity message.data.entry.networkId).isNone then
          .ok none (stashUpdate stash message.data.entry.networkId message)
        else
          match authorizeOrSanitizeMessageData env message.data.entry
              message.from_session_id senderPermissions with
          | .error _ => .exn stash
          | .ok (false, _) => .ok none stash
          | .ok (true, entry') =>
              .ok (some { message with data := { message.data with entry := entry' } }) stash
      else if message.dataType == "r" then
        match getPendingOrExistingEntityMetadata env message.data.entry.networkId with
        | none => .ok none stash
        | some entityMetadata =>
            if authorizeEntityManipulation entityMetadata message.from_session_id
                senderPermissions then
              .ok (some message) stash
            else
              .ok none stash
      else
        .ok (some message) stash

/-- `applyPersistentSync(networkId)`: when a stash entry exists, re-run it
through the gate (with the current stash), hand the gate's output to
`NAF.connection.adapter.onData` — `some delivered` records that call, with
`delivered = none` standing for the `emptyObject` — and only then delete the
entry.  Without an entry the call returns immediately. -/
def applyPersistentSync {V : Type} (env : Env) (stash : Stash V)
    (networkId : String) : JSResult (Stash V) (Option (Option (Message V))) :=
  match stash networkId with
  | none => .ok none stash
  | some m =>
      match authorizeOrSanitizeMessage env stash m with
      | .exn stash' => .exn stash'
      | .ok delivered stash' => .ok (some delivered) (stashRemove stash' networkId)

/-- The merge described by the spec's merge law: the later update's top-level
fields win, and the `components` maps are deep-merged key-wise with the later
update's keys winning. -/
def mergeEntityData {V : Type} (a b : EntityData V) : EntityData V :=
  { networkId := b.networkId
    persistent := b.persistent
    isFirstSync := b.isFirstSync
    components := objAssign a.components b.components
    other := objAssign a.other b.other }

/-! ### Helper lemmas -/

theorem endsWithJS_iff {s pat : String} : endsWithJS s pat = true ↔ pat.data <:+ s.data := by
  simp [endsWithJS]

theorem endsWithJS_suffix_total {s a b : String} (ha : endsWithJS s a = true)
    (hb : endsWithJS s b = true) : a.data <:+ b.data ∨ b.data <:+ a.data :=
  List.suffix_or_suffix_of_suffix (endsWithJS_iff.mp ha) (endsWithJS_iff.mp hb)

/-- Two template-kind suffixes neither of which is a suffix of the other can
never both match one template string. -/
theorem endsWithJS_excl {s a b : String} (h1 : ¬ a.data <:+ b.data)
    (h2 : ¬ b.data <:+ a.data) (hb : endsWithJS s b = true) :
    endsWithJS s a = false := by
  by_contra h
  rw [Bool.not_eq_false] at h
  rcases endsWithJS_suffix_total h hb with h' | h'
  · exact h1 h'
  · exact h2 h'

/-! ### C2 — permission policy characterization -/

/-- C2: `authorizeEntityManipulation` returns true exactly when the template
ends in `-avatar` and the sender is the creator; or it ends in `-media` and
the sender is the creator or has `spawn_and_move_media`; or it ends in
`-camera` and the sender is the creator or has `spawn_camera`; or it ends in
`-pen` or `-drawing` and the sender is the creator or has `spawn_drawing`;
for every template matching none of these suffixes it returns false,
regardless of creator or permissions (no disjunct applies). -/
theorem authorizeEntityManipulation_true_iff (m : EntityMeta) (sender : String)
    (p : Permissions) :
    authorizeEntityManipulation m sender p = true ↔
      ((endsWithJS m.template "-avatar" = true ∧ sender = m.creator) ∨
       (endsWithJS m.template "-media" = true ∧
         (sender = m.creator ∨ p.spawn_and_move_media = true)) ∨
       (endsWithJS m.template "-camera" = true ∧
         (sender = m.creator ∨ p.spawn_camera = true)) ∨
       ((endsWithJS m.template "-pen" = true ∨ endsWithJS m.template "-drawing" = true) ∧
         (sender = m.creator ∨ p.spawn_drawing = true))) := by
  unfold authorizeEntityManipulation
  by_cases hav : endsWithJS m.template "-avatar" = true
  · have hme := endsWithJS_excl (a := "-media") (by decide) (by decide) hav
    have hca := endsWithJS_excl (a := "-camera") (by decide) (by decide) hav
    have hpe := endsWithJS_excl (a := "-pen") (by decide) (by decide) hav
    have hdr := endsWithJS_excl (a := "-drawing") (by decide) (by decide) hav
    simp [hav, hme, hca, hpe, hdr]
  · rw [Bool.not_eq_true] at hav
    by_cases hme : endsWithJS m.template "-media" = true
    · have hca := endsWithJS_excl (a := "-camera") (by decide) (by decide) hme
      have hpe := endsWithJS_excl (a := "-pen") (by decide) (by decide) hme
      have hdr := endsWithJS_excl (a := "-drawing") (by decide) (by decide) hme
      simp [hav, hme, hca, hpe, hdr, or_comm]
    · rw [Bool.not_eq_true] at hme
      by_cases hca : endsWithJS m.template "-camera" = true
      · have hpe := endsWithJS_excl (a := "-pen") (by decide) (by decide) hca
        have hdr := endsWithJS_excl (a := "-drawing") (by decide) (by decide) hca
        simp [hav, hme, hca, hpe, hdr, or_comm]
      · rw [Bool.not_eq_true] at hca
        by_cases hpd : (endsWithJS m.template "-pen" || endsWithJS m.template "-drawing") = true
        · simp only [Bool.or_eq_true] at hpd
          simp [hav, hme, hca, hpd, or_comm]
        · simp only [Bool.or_eq_true, not_or, Bool.not_eq_true] at hpd
          simp [hav, hme, hca, hpd.1, hpd.2]

/-! ### C7 — metadata resolver totality and absence behavior -/

/-- C7: `getPendingOrExistingEntityMetadata` is a total function (the
embedding's `Option` return is the JS `null`/`undefined`; nothing in its body
can raise) and yields absence whenever information is missing: a pending
record whose declared owner session has no presence entry yields `none`;
without a pending record the result is exactly the materialized-entity
lookup (so `none` when neither exists, and the `{template, creator}` pair of
the entity otherwise); a pending record with no owner, or with an owner that
still has a presence entry, yields the pending record's pair. -/
theorem getPendingOrExistingEntityMetadata_spec (env : Env) (networkId : String) :
    (∀ pd, env.pending networkId = some pd →
        (∀ o, pd.owner = some o → env.presence o = none →
            getPendingOrExistingEntityMetadata env networkId = none) ∧
        (pd.owner = none →
            getPendingOrExistingEntityMetadata env networkId
              = some ⟨pd.template, pd.creator⟩) ∧
        (∀ o, pd.owner = some o → (env.presence o).isSome = true →
            getPendingOrExistingEntityMetadata env networkId
              = some ⟨pd.template, pd.creator⟩)) ∧
    (env.pending networkId = none →
        getPendingOrExistingEntityMetadata env networkId = env.entity networkId) := by
  constructor
  · intro pd hpd
    refine ⟨?_, ?_, ?_⟩
    · intro o ho hpres
      simp [getPendingOrExistingEntityMetadata, hpd, ho, hpres]
    · intro ho
      simp [getPendingOrExistingEntityMetadata, hpd, ho]
    · intro o ho hpres
      simp [getPendingOrExistingEntityMetadata, hpd, ho, hpres]
  · intro h
    simp [getPendingOrExistingEntityMetadata, h]

/-- Environment for the C7 witness: a pending record for `"n1"` declaring an
owner that has no presence entry. -/
def envC7 : Env :=
  { schemaDict := []
    pending := fun nid => if nid = "n1" then some ⟨"x-media", "c1", some "owner1"⟩ else none
    entity := fun _ => some ⟨"x-media", "c1"⟩
    presence := fun _ => none }

/-- C7 witness: on `envC7` the resolver yields absence for `"n1"` (ghost
owner), obtained by applying the characterization theorem. -/
theorem getPendingOrExistingEntityMetadata_spec_witness :
    getPendingOrExistingEntityMetadata envC7 "n1" = none :=
  ((getPendingOrExistingEntityMetadata_spec envC7 "n1").1
      ⟨"x-media", "c1", some "owner1"⟩ rfl).1 "owner1" rfl rfl

/-! ### C9 — sanitize is idempotent -/

/-- C9: sanitizing twice with the same template kind is the same as
sanitizing once (composition in the exception monad: an already-sanitized
payload is a fixed point, and the no-schema failure behaves identically on
both passes). -/
theorem sanitizeMessageData_idempotent {V : Type} (schemaDict : List (String × NafSchema))
    (template : String) (data : EntityData V) :
    (sanitizeMessageData schemaDict template data).bind
        (sanitizeMessageData schemaDict template)
      = sanitizeMessageData schemaDict template data := by
  cases h : lookupKey (initNonAuthorizedSchemas schemaDict) template with
  | none =>
      cases hc : data.components with
      | nil =>
          simp only [sanitizeMessageData, h, hc, Except.bind]
      | cons hd tl =>
          simp only [sanitizeMessageData, h, hc, Except.bind]
  | some idxs =>
      simp only [sanitizeMessageData, h, Except.bind, List.map_map]
      have hff :
          ((fun kv : String × Option V =>
              (kv.1, if idxs.contains kv.1 = true then kv.2 else none))
              ∘ fun kv : String × Option V =>
                (kv.1, if idxs.contains kv.1 = true then kv.2 else none))
            = fun kv => (kv.1, if idxs.contains kv.1 = true then kv.2 else none) := by
        funext kv
        by_cases hk : kv.1 ∈ idxs
        · simp [Function.comp, hk]
        · simp [Function.comp, hk]
      rw [hff]

/-! ### C3 — sanitizer characterization -/

/-- The built registry looks up to the stringified non-authorized indices of
the template's schema. -/
theorem lookupKey_initNonAuthorizedSchemas (sd : List (String × NafSchema)) (t : String) :
    lookupKey (initNonAuthorizedSchemas sd) t
      = (lookupKey sd t).map fun schema =>
          schema.nonAuthorizedComponents.map fun c => toString (indexForComponent c schema) := by
  induction sd with
  | nil => rfl
  | cons hd tl ih =>
      obtain ⟨k, v⟩ := hd
      by_cases h : k = t
      · simp [initNonAuthorizedSchemas, lookupKey, h]
      · simpa [initNonAuthorizedSchemas, lookupKey, h] using ih

/-- `findIndex` results are `-1` or a valid position. -/
theorem findIndexJS_lt_length {α : Type} (p : α → Bool) (l : List α)
    (h : 0 ≤ findIndexJS p l) : findIndexJS p l < l.length := by
  induction l with
  | nil => simp [findIndexJS] at h
  | cons a rest ih =>
      by_cases hp : p a = true
      · simp [findIndexJS, hp]
      · simp only [findIndexJS, hp, Bool.false_eq_true, if_false] at h ⊢
        by_cases hr : findIndexJS p rest < 0
        · simp [hr] at h
        · push_neg at hr
          have := ih hr
          simp only [if_neg (by omega : ¬ findIndexJS p rest < 0)] at h ⊢
          simp only [List.length_cons]
          omega

/-- Every component descriptor lands at `findIndexJS` of some predicate. -/
theorem indexForComponent_eq_findIndexJS (c : SchemaComp) (schema : NafSchema) :
    ∃ p, indexForComponent c schema = findIndexJS p schema.components := by
  cases c with
  | full name => exact ⟨_, rfl⟩
  | withProp cname pname => exact ⟨_, rfl⟩

/-- When every non-authorized descriptor of a schema resolves to a declared
slot, each member of the stringified index list is `toString` of a valid slot
position. -/
theorem mem_nonAuthorizedIndices {schema : NafSchema} {k : String}
    (hres : ∀ c ∈ schema.nonAuthorizedComponents, 0 ≤ indexForComponent c schema)
    (hk : k ∈ schema.nonAuthorizedComponents.map
        fun c => toString (indexForComponent c schema)) :
    ∃ n : Nat, n < schema.components.length ∧ k = toString n := by
  rcases List.mem_map.mp hk with ⟨c, hc, rfl⟩
  have h0 := hres c hc
  obtain ⟨p, hp⟩ := indexForComponent_eq_findIndexJS c schema
  have hlt : indexForComponent c schema < schema.components.length := by
    rw [hp] at h0 ⊢
    exact findIndexJS_lt_length p schema.components h0
  refine ⟨(indexForComponent c schema).toNat, ?_, ?_⟩
  · omega
  · rw [← Int.toNat_of_nonneg h0]
    rfl

/-- Looking up a key in the sanitized component map: present keys map their
value through the null-unless-safe projection, absent keys stay absent. -/
theorem lookupKey_sanitized {V : Type} (idxs : List String)
    (comps : List (String × Option V)) (k : String) :
    lookupKey (comps.map fun kv => (kv.1, if idxs.contains kv.1 then kv.2 else none)) k
      = (lookupKey comps k).map fun v => if idxs.contains k then v else none := by
  induction comps with
  | nil => rfl
  | cons hd tl ih =>
      obtain ⟨k', v'⟩ := hd
      by_cases h : k' = k
      · subst h
        simp [lookupKey]
      · simpa [lookupKey, h] using ih

/-- C3: for a template with a registered schema all of whose non-authorized
descriptors resolve to declared slots, `sanitizeMessageData` succeeds and
returns the payload with only its `components` map rewritten: every slot
index present in the payload that is not in the non-authorized-safe list is
overwritten with the null marker — in particular every present index that
resolves to no declared schema slot — safe slots keep their value, absent
slots stay absent, the key set and its order are unchanged, and all other
payload fields are untouched (the JS function mutates and returns the very
payload object it was given). -/
theorem sanitizeMessageData_spec {V : Type} (sd : List (String × NafSchema))
    (template : String) (schema : NafSchema) (data : EntityData V)
    (hschema : lookupKey sd template = some schema)
    (hres : ∀ c ∈ schema.nonAuthorizedComponents, 0 ≤ indexForComponent c schema) :
    ∃ comps',
      sanitizeMessageData sd template data = .ok { data with components := comps' } ∧
      comps'.map Prod.fst = data.components.map Prod.fst ∧
      (∀ k, lookupKey comps' k
          = (lookupKey data.components k).map fun v =>
              if (schema.nonAuthorizedComponents.map
                  fun c => toString (indexForComponent c schema)).contains k then v
              else none) ∧
      (∀ k, (∀ n : Nat, n < schema.components.length → k ≠ toString n) →
          lookupKey comps' k = (lookupKey data.components k).map fun _ => none) := by
  have hlook : lookupKey (initNonAuthorizedSchemas sd) template
      = some (schema.nonAuthorizedComponents.map
          fun c => toString (indexForComponent c schema)) := by
    rw [lookupKey_initNonAuthorizedSchemas, hschema]
    rfl
  set idxs := schema.nonAuthorizedComponents.map
      fun c => toString (indexForComponent c schema) with hidxs
  refine ⟨data.components.map fun kv => (kv.1, if idxs.contains kv.1 then kv.2 else none),
    ?_, ?_, ?_, ?_⟩
  · simp [sanitizeMessageData, hlook]
  · rw [List.map_map]
    rfl
  · intro k
    exact lookupKey_sanitized idxs data.components k
  · intro k hk
    rw [lookupKey_sanitized idxs data.components k]
    have hnot : k ∉ idxs := by
      intro hcon
      obtain ⟨n, hn, hkeq⟩ := mem_nonAuthorizedIndices hres hcon
      exact hk n hn hkeq
    cases lookupKey data.components k with
    | none => rfl
    | some v => simp [hnot]

/-- Schema for the C3 witness: three slots, of which `"scale"` (index 2) and
the `{media-loader, src}` pair (index 1) are non-authorized-safe. -/
def schemaC3 : NafSchema :=
  { components := [.full "position", .withProp "media-loader" "src", .full "scale"]
    nonAuthorizedComponents := [.full "scale", .withProp "media-loader" "src"] }

/-- Payload for the C3 witness: slots 0 (unsafe), 1 and 2 (safe) and 5 (no
declared slot). -/
def dataC3 : EntityData Nat :=
  { networkId := "n1", persistent := false, isFirstSync := false
    components := [("0", some 7), ("1", some 8), ("2", some 9), ("5", some 10)]
    other := [] }

/-- C3 witness: the sanitizer characterization applied to the concrete
schema/payload pair above. -/
theorem sanitizeMessageData_spec_witness :
    ∃ comps',
      sanitizeMessageData [("t1", schemaC3)] "t1" dataC3
        = .ok { dataC3 with components := comps' } ∧
      comps'.map Prod.fst = dataC3.components.map Prod.fst ∧
      (∀ k, lookupKey comps' k
          = (lookupKey dataC3.components k).map fun v =>
              if (schemaC3.nonAuthorizedComponents.map
                  fun c => toString (indexForComponent c schemaC3)).contains k then v
              else none) ∧
      (∀ k, (∀ n : Nat, n < schemaC3.components.length → k ≠ toString n) →
          lookupKey comps' k = (lookupKey dataC3.components k).map fun _ => none) :=
  sanitizeMessageData_spec [("t1", schemaC3)] "t1" schemaC3 dataC3 rfl (by decide)

/-! ### C1 — empty message for senders without presence -/

/-- C1 (amended): for every message whose sender session has no presence
entry the gate returns the empty no-op message and leaves the stash alone —
except for the first-sync creation case (`dataType "u"`, `isFirstSync` set,
`persistent` unset), which returns before the presence check. -/
theorem gate_empty_of_no_presence {V : Type} (env : Env) (stash : Stash V)
    (message : Message V)
    (hpres : env.presence message.from_session_id = none)
    (hnotfs : ¬ (message.dataType = "u" ∧ message.data.entry.isFirstSync = true ∧
        message.data.entry.persistent = false)) :
    authorizeOrSanitizeMessage env stash message = .ok none stash := by
  have hcond : (message.dataType == "u" && message.data.entry.isFirstSync
      && !message.data.entry.persistent) = false := by
    by_contra hc
    rw [Bool.not_eq_false] at hc
    simp only [Bool.and_eq_true, beq_iff_eq, Bool.not_eq_true'] at hc
    exact hnotfs ⟨hc.1.1, hc.1.2, hc.2⟩
  simp [authorizeOrSanitizeMessage, hcond, hpres]

/-- Environment for the C1 witness and counterexample: nobody has a presence
entry, nothing is pending or materialized. -/
def envNoPresence : Env :=
  { schemaDict := [], pending := fun _ => none, entity := fun _ => none
    presence := fun _ => none }

/-- A remove message from a sender with no presence entry. -/
def msgC1r : Message Nat :=
  { dataType := "r", from_session_id := "s1", clientId := "c1"
    data := { entry := { networkId := "n1", persistent := false, isFirstSync := false
                         components := [], other := [] }, d := [] } }

/-- C1 witness: the no-presence remove message is swallowed. -/
theorem gate_empty_of_no_presence_witness :
    authorizeOrSanitizeMessage envNoPresence emptyStash msgC1r = .ok none emptyStash :=
  gate_empty_of_no_presence envNoPresence emptyStash msgC1r rfl (by simp [msgC1r])

/-- A first-sync, non-persistent `"u"` message from a sender with no presence
entry. -/
def msgC1fs : Message Nat :=
  { dataType := "u", from_session_id := "s1", clientId := "c1"
    data := { entry := { networkId := "n1", persistent := false, isFirstSync := true
                         components := [], other := [] }, d := [] } }

/-- C1 counterexample: a `"u"` message with `isFirstSync` set (and
`persistent` unset) from a sender with no presence entry is passed through
unmodified — the first-sync early return precedes the presence check — so the
gate does not return the empty message for every such message. -/
theorem gate_no_presence_first_sync_cex :
    envNoPresence.presence msgC1fs.from_session_id = none ∧
    authorizeOrSanitizeMessage envNoPresence emptyStash msgC1fs
      = .ok (some msgC1fs) emptyStash ∧
    some msgC1fs ≠ (none : Option (Message Nat)) :=
  ⟨rfl, rfl, by simp⟩

/-! ### C4 — bulk-update processing -/

/-- Provenance relation between the input entry list of a `"um"` message and
the compacted output list: entries are processed left to right; an entry that
was stashed (persistent with no materialized entity) or whose metadata
resolution failed is removed, every other entry survives in order as the
value `authorizeOrSanitizeMessageData` left in its slot (kept as-is when
authorized, sanitized in place otherwise). -/
inductive UmOut {V : Type} (env : Env) (sender : String) (perms : Permissions) :
    List (EntityData V) → List (EntityData V) → Prop where
  | nil : UmOut env sender perms [] []
  | dropped {rest out : List (EntityData V)} (e : EntityData V)
      (hdrop : (e.persistent = true ∧ env.entity e.networkId = none) ∨
        getPendingOrExistingEntityMetadata env e.networkId = none)
      (htail : UmOut env sender perms rest out) : UmOut env sender perms (e :: rest) out
  | kept {rest out : List (EntityData V)} (e e' : EntityData V)
      (hkeep : authorizeOrSanitizeMessageData env e sender perms = .ok (true, e'))
      (htail : UmOut env sender perms rest out) :
      UmOut env sender perms (e :: rest) (e' :: out)

/-- `authorizeOrSanitizeMessageData` only answers `false` when metadata
resolution failed. -/
theorem authorizeOrSanitizeMessageData_false {V : Type} (env : Env)
    (data : EntityData V) (sender : String) (perms : Permissions) {d' : EntityData V}
    (h : authorizeOrSanitizeMessageData env data sender perms = .ok (false, d')) :
    getPendingOrExistingEntityMetadata env data.networkId = none := by
  cases hm : getPendingOrExistingEntityMetadata env data.networkId with
  | none => rfl
  | some meta =>
      exfalso
      simp only [authorizeOrSanitizeMessageData, hm] at h
      by_cases ha : authorizeEntityManipulation meta sender perms = true
      · rw [if_pos ha] at h
        simp at h
      · rw [if_neg ha] at h
        cases hs : sanitizeMessageData env.schemaDict meta.template data with
        | ok d2 => simp only [hs] at h; simp at h
        | error e => simp only [hs] at h; simp at h

/-- Invariant of the `"um"` loop: on normal completion the compacted slot
list is at most as long as the input and related to it by `UmOut`. -/
theorem umLoop_spec {V : Type} (env : Env) (message : Message V) (perms : Permissions) :
    ∀ (entries : List (EntityData V)) (stash : Stash V),
      (match umLoop env message perms stash entries with
        | .ok (slots, _, _) _ =>
            (slots.filterMap id).length ≤ entries.length ∧
            UmOut env message.from_session_id perms entries (slots.filterMap id)
        | .exn _ => True) := by
  intro entries
  induction entries with
  | nil =>
      intro stash
      exact ⟨Nat.le_refl 0, UmOut.nil⟩
  | cons e rest ih =>
      intro stash
      by_cases hc : (e.persistent && (env.entity e.networkId).isNone) = true
      · have ih' := ih (stashPersistentSync stash message e)
        simp only [umLoop, hc, if_true]
        cases hrec : umLoop env message perms (stashPersistentSync stash message e) rest with
        | exn s' => trivial
        | ok out s' =>
            obtain ⟨slots0, st0, sa0⟩ := out
            rw [hrec] at ih'
            have hdrop : (e.persistent = true ∧ env.entity e.networkId = none) ∨
                getPendingOrExistingEntityMetadata env e.networkId = none := by
              rw [Bool.and_eq_true, Option.isNone_iff_eq_none] at hc
              exact Or.inl hc
            exact ⟨Nat.le_succ_of_le ih'.1, UmOut.dropped e hdrop ih'.2⟩
      · rw [Bool.not_eq_true] at hc
        simp only [umLoop, hc, Bool.false_eq_true, if_false]
        cases hauth : authorizeOrSanitizeMessageData env e message.from_session_id perms with
        | error err => trivial
        | ok be =>
            obtain ⟨b, e'⟩ := be
            cases b with
            | false =>
                have ih' := ih stash
                cases hrec : umLoop env message perms stash rest with
                | exn s' => trivial
                | ok out s' =>
                    obtain ⟨slots0, st0, sa0⟩ := out
                    rw [hrec] at ih'
                    exact ⟨Nat.le_succ_of_le ih'.1,
                      UmOut.dropped e
                        (Or.inr (authorizeOrSanitizeMessageData_false env e
                          message.from_session_id perms hauth)) ih'.2⟩
            | true =>
                have ih' := ih stash
                cases hrec : umLoop env message perms stash rest with
                | exn s' => trivial
                | ok out s' =>
                    obtain ⟨slots0, st0, sa0⟩ := out
                    rw [hrec] at ih'
                    refine ⟨?_, UmOut.kept e e' hauth ih'.2⟩
                    simpa using Nat.succ_le_succ ih'.1

/-- C4: a `"um"` message from a sender with a presence entry that the gate
processes to completion yields a message whose entry list is at most as long
as the input list, contains only surviving entries (the compaction removes
every nulled slot, so no null entries remain by construction), and is related
to the input list by `UmOut`: order preserved, every output entry an input
entry kept as authorized or sanitized in place, and exactly the stashed or
resolution-failed entries removed. -/
theorem gate_um_spec {V : Type} (env : Env) (stash : Stash V) (message : Message V)
    (perms : Permissions) {r : Option (Message V)} {stash' : Stash V}
    (hdt : message.dataType = "um")
    (hp : env.presence message.from_session_id = some perms)
    (hok : authorizeOrSanitizeMessage env stash message = .ok r stash') :
    ∃ out, r = some out ∧
      out.data.d.length ≤ message.data.d.length ∧
      UmOut env message.from_session_id perms message.data.d out.data.d := by
  have hspec := umLoop_spec env message perms message.data.d stash
  simp only [authorizeOrSanitizeMessage, hdt, hp] at hok
  norm_num at hok
  cases hu : umLoop env message perms stash message.data.d with
  | exn s1 =>
      rw [hu] at hok
      simp at hok
  | ok out0 s1 =>
      obtain ⟨slots, fl⟩ := out0
      rw [hu] at hok
      simp only at hok
      injection hok with h1 h2
      subst h1
      rw [hu] at hspec
      exact ⟨_, rfl, hspec.1, hspec.2⟩

/-- The empty permission set. -/
def permsNone : Permissions := ⟨false, false, false⟩

/-- Environment for the C4 witness: entity `"n1"` is a media entity created
by session `"s1"`; everyone has (empty) permissions. -/
def envC4 : Env :=
  { schemaDict := []
    pending := fun _ => none
    entity := fun nid => if nid = "n1" then some ⟨"x-media", "s1"⟩ else none
    presence := fun _ => some permsNone }

/-- A bulk entry targeting `"n1"`. -/
def entryC4 : EntityData Nat :=
  { networkId := "n1", persistent := false, isFirstSync := false
    components := [("0", some 3)], other := [] }

/-- A `"um"` message carrying one entry, sent by the creator of `"n1"`. -/
def msgC4 : Message Nat :=
  { dataType := "um", from_session_id := "s1", clientId := "c1"
    data := { entry := { networkId := "", persistent := false, isFirstSync := false
                         components := [], other := [] }
              d := [entryC4] } }

/-- C4 witness: the bulk-update theorem applied to the one-entry message. -/
theorem gate_um_spec_witness :
    ∃ out, some msgC4 = some out ∧
      out.data.d.length ≤ msgC4.data.d.length ∧
      UmOut envC4 msgC4.from_session_id permsNone msgC4.data.d out.data.d :=
  gate_um_spec envC4 emptyStash msgC4 permsNone rfl rfl rfl

/-! ### C5 — persistent "u" stash and exactly-once replay -/

/-- C5: a persistent `"u"` message whose entity is not yet materialized and
whose sender has a presence entry is stashed under its networkId and the gate
returns the empty message; once the entity is materialized (replay
environment `env'`: no pending record, entity resolves, sender authorized),
`applyPersistentSync` hands exactly the stashed message to `onData` and
removes the stash entry, and a second `applyPersistentSync` for the same
networkId delivers nothing and changes nothing. -/
theorem gate_persistent_stash_replay {V : Type} (env env' : Env) (stash : Stash V)
    (message : Message V) (perms perms' : Permissions) (meta : EntityMeta)
    (hdt : message.dataType = "u")
    (hpers : message.data.entry.persistent = true)
    (hent : env.entity message.data.entry.networkId = none)
    (hp : env.presence message.from_session_id = some perms)
    (hp' : env'.presence message.from_session_id = some perms')
    (hpend' : env'.pending message.data.entry.networkId = none)
    (hent' : env'.entity message.data.entry.networkId = some meta)
    (hauth : authorizeEntityManipulation meta message.from_session_id perms' = true) :
    authorizeOrSanitizeMessage env stash message
      = .ok none (stashUpdate stash message.data.entry.networkId message) ∧
    applyPersistentSync env' (stashUpdate stash message.data.entry.networkId message)
        message.data.entry.networkId
      = .ok (some (some message))
          (stashRemove (stashUpdate stash message.data.entry.networkId message)
            message.data.entry.networkId) ∧
    stashRemove (stashUpdate stash message.data.entry.networkId message)
        message.data.entry.networkId message.data.entry.networkId = none ∧
    applyPersistentSync env'
        (stashRemove (stashUpdate stash message.data.entry.networkId message)
          message.data.entry.networkId)
        message.data.entry.networkId
      = .ok none
          (stashRemove (stashUpdate stash message.data.entry.networkId message)
            message.data.entry.networkId) := by
  have hgate : authorizeOrSanitizeMessage env'
      (stashUpdate stash message.data.entry.networkId message) message
      = .ok (some message) (stashUpdate stash message.data.entry.networkId message) := by
    simp [authorizeOrSanitizeMessage, hdt, hpers, hp', hent',
      authorizeOrSanitizeMessageData, getPendingOrExistingEntityMetadata, hpend', hauth]
    obtain ⟨dt, fsid, cid, mdata⟩ := message
    obtain ⟨entry, dlist⟩ := mdata
    simp_all
  refine ⟨?_, ?_, ?_, ?_⟩
  · simp [authorizeOrSanitizeMessage, hdt, hpers, hp, hent]
  · have hlook : (stashUpdate stash message.data.entry.networkId message)
        message.data.entry.networkId = some message := by
      simp [stashUpdate]
    simp only [applyPersistentSync, hlook, hgate]
  · simp [stashRemove]
  · have hlook : (stashRemove (stashUpdate stash message.data.entry.networkId message)
        message.data.entry.networkId) message.data.entry.networkId = none := by
      simp [stashRemove]
    simp only [applyPersistentSync, hlook]

/-- Stash-side environment for the C5 witness: entity `"n1"` not yet
materialized, presence known. -/
def envC5 : Env :=
  { schemaDict := [], pending := fun _ => none, entity := fun _ => none
    presence := fun _ => some permsNone }

/-- Replay-side environment for the C5 witness: `"n1"` is now a media entity
created by `"s1"`. -/
def envC5' : Env :=
  { schemaDict := []
    pending := fun _ => none
    entity := fun nid => if nid = "n1" then some ⟨"x-media", "s1"⟩ else none
    presence := fun _ => some permsNone }

/-- A persistent `"u"` message for `"n1"` from its creator. -/
def msgC5 : Message Nat :=
  { dataType := "u", from_session_id := "s1", clientId := "c1"
    data := { entry := { networkId := "n1", persistent := true, isFirstSync := false
                         components := [("0", some 2)], other := [] }
              d := [] } }

/-- C5 witness: stash-and-replay theorem applied to the concrete message. -/
theorem gate_persistent_stash_replay_witness :
    authorizeOrSanitizeMessage envC5 emptyStash msgC5
      = .ok none (stashUpdate emptyStash msgC5.data.entry.networkId msgC5) ∧
    applyPersistentSync envC5' (stashUpdate emptyStash msgC5.data.entry.networkId msgC5)
        msgC5.data.entry.networkId
      = .ok (some (some msgC5))
          (stashRemove (stashUpdate emptyStash msgC5.data.entry.networkId msgC5)
            msgC5.data.entry.networkId) ∧
    stashRemove (stashUpdate emptyStash msgC5.data.entry.networkId msgC5)
        msgC5.data.entry.networkId msgC5.data.entry.networkId = none ∧
    applyPersistentSync envC5'
        (stashRemove (stashUpdate emptyStash msgC5.data.entry.networkId msgC5)
          msgC5.data.entry.networkId)
        msgC5.data.entry.networkId
      = .ok none
          (stashRemove (stashUpdate emptyStash msgC5.data.entry.networkId msgC5)
            msgC5.data.entry.networkId) :=
  gate_persistent_stash_replay envC5 envC5' emptyStash msgC5 permsNone permsNone
    ⟨"x-media", "s1"⟩ rfl rfl rfl rfl rfl rfl rfl (by decide)

/-! ### C6 — stash merge law -/

/-- C6 (amended): along the bulk-update path (`stashPersistentSync`),
stashing update `a` then update `b` for the same networkId starting from a
stash with no entry for it yields exactly the stash of the single merged
update `mergeEntityData a b` (later top-level fields win, `components`
deep-merged key-wise with the later keys winning), and therefore replaying
that networkId delivers the same result.  The single-`"u"`-message path does
not merge: it overwrites (see the counterexample). -/
theorem stashPersistentSync_merge_law {V : Type} (env : Env) (s : Stash V)
    (mA mB : Message V) (a b : EntityData V) (nid : String)
    (ha : a.networkId = nid) (hb : b.networkId = nid) (hs : s nid = none) :
    stashPersistentSync (stashPersistentSync s mA a) mB b
      = stashPersistentSync s mA (mergeEntityData a b) ∧
    applyPersistentSync env (stashPersistentSync (stashPersistentSync s mA a) mB b) nid
      = applyPersistentSync env (stashPersistentSync s mA (mergeEntityData a b)) nid := by
  have h1 : stashPersistentSync (stashPersistentSync s mA a) mB b
      = stashPersistentSync s mA (mergeEntityData a b) := by
    funext j
    subst ha
    by_cases hj : j = a.networkId
    · subst hj
      simp [stashPersistentSync, hs, hb, stashUpdate, stashMerge, entryToMessageData,
        mergeEntityData]
    · simp [stashPersistentSync, hs, hb, stashUpdate, hj, stashMerge, entryToMessageData,
        mergeEntityData]
  exact ⟨h1, by rw [h1]⟩

/-- First update for the C6 witness: slot 0 plus an `owner` top-level
field. -/
def entryC6a : EntityData Nat :=
  { networkId := "n1", persistent := true, isFirstSync := false
    components := [("0", some 1), ("1", some 2)], other := [("owner", 7)] }

/-- Second update for the C6 witness: overlapping slot 1, new slot 2. -/
def entryC6b : EntityData Nat :=
  { networkId := "n1", persistent := true, isFirstSync := false
    components := [("1", some 9), ("2", some 4)], other := [] }

/-- A carrier `"um"` message for the C6 witness stashes. -/
def msgC6um : Message Nat :=
  { dataType := "um", from_session_id := "s1", clientId := "c1"
    data := { entry := { networkId := "", persistent := false, isFirstSync := false
                         components := [], other := [] }
              d := [entryC6a, entryC6b] } }

/-- C6 witness: the merge law applied to two concrete overlapping updates. -/
theorem stashPersistentSync_merge_law_witness :
    stashPersistentSync (stashPersistentSync emptyStash msgC6um entryC6a) msgC6um entryC6b
      = stashPersistentSync emptyStash msgC6um (mergeEntityData entryC6a entryC6b) ∧
    applyPersistentSync envC5'
        (stashPersistentSync (stashPersistentSync emptyStash msgC6um entryC6a) msgC6um
          entryC6b) "n1"
      = applyPersistentSync envC5'
          (stashPersistentSync emptyStash msgC6um (mergeEntityData entryC6a entryC6b)) "n1" :=
  stashPersistentSync_merge_law envC5' emptyStash msgC6um msgC6um entryC6a entryC6b "n1"
    rfl rfl rfl

/-- Environment for the C6 counterexample: sender has presence, nothing
materialized, so persistent `"u"` messages take the stash path. -/
def envC6cex : Env :=
  { schemaDict := [], pending := fun _ => none, entity := fun _ => none
    presence := fun _ => some permsNone }

/-- First persistent `"u"` message: slot 0 carries a value. -/
def msgC6A : Message Nat :=
  { dataType := "u", from_session_id := "s1", clientId := "c1"
    data := { entry := { networkId := "n1", persistent := true, isFirstSync := false
                         components := [("0", some 1)], other := [] }
              d := [] } }

/-- Second persistent `"u"` message for the same networkId: empty component
map. -/
def msgC6B : Message Nat :=
  { dataType := "u", from_session_id := "s1", clientId := "c1"
    data := { entry := { networkId := "n1", persistent := true, isFirstSync := false
                         components := [], other := [] }
              d := [] } }

/-- C6 counterexample: along the single-`"u"`-message path the gate stores
the second message wholesale (`persistentSyncs[id] = message`), so after
stashing A then B the retained data is B's — not the key-wise merge, which
would still hold slot 0 from A.  The claimed merge law therefore fails on
the `"u"` path. -/
theorem u_path_stash_overwrites_cex :
    authorizeOrSanitizeMessage envC6cex emptyStash msgC6A
      = .ok none (stashUpdate emptyStash "n1" msgC6A) ∧
    authorizeOrSanitizeMessage envC6cex (stashUpdate emptyStash "n1" msgC6A) msgC6B
      = .ok none (stashUpdate (stashUpdate emptyStash "n1" msgC6A) "n1" msgC6B) ∧
    stashUpdate (stashUpdate emptyStash "n1" msgC6A) "n1" msgC6B "n1" = some msgC6B ∧
    msgC6B.data.entry ≠ mergeEntityData msgC6A.data.entry msgC6B.data.entry :=
  ⟨rfl, rfl, by decide, by decide⟩

/-! ### C8 — exception freedom of the authorization path -/

/-- With a registered schema the sanitizer always completes. -/
theorem sanitizeMessageData_ok {V : Type} (sd : List (String × NafSchema)) (t : String)
    (data : EntityData V)
    (h : (lookupKey (initNonAuthorizedSchemas sd) t).isSome = true) :
    ∃ d', sanitizeMessageData sd t data = .ok d' := by
  cases hl : lookupKey (initNonAuthorizedSchemas sd) t with
  | none => rw [hl] at h; simp at h
  | some idxs =>
      exact ⟨{ data with components :=
          data.components.map fun kv => (kv.1, if idxs.contains kv.1 then kv.2 else none) },
        by simp [sanitizeMessageData, hl]⟩

/-- When every template the resolver can produce has a registered schema,
`authorizeOrSanitizeMessageData` always completes. -/
theorem authorizeOrSanitizeMessageData_ok {V : Type} (env : Env) (data : EntityData V)
    (sender : String) (perms : Permissions)
    (hcov : ∀ nid meta, getPendingOrExistingEntityMetadata env nid = some meta →
        (lookupKey (initNonAuthorizedSchemas env.schemaDict) meta.template).isSome = true) :
    ∃ r, authorizeOrSanitizeMessageData env data sender perms = .ok r := by
  cases hm : getPendingOrExistingEntityMetadata env data.networkId with
  | none => exact ⟨(false, data), by simp [authorizeOrSanitizeMessageData, hm]⟩
  | some meta =>
      by_cases ha : authorizeEntityManipulation meta sender perms = true
      · exact ⟨(true, data), by simp [authorizeOrSanitizeMessageData, hm, ha]⟩
      · obtain ⟨d', hd'⟩ := sanitizeMessageData_ok env.schemaDict meta.template data
          (hcov data.networkId meta hm)
        exact ⟨(true, d'), by simp [authorizeOrSanitizeMessageData, hm, ha, hd']⟩

/-- Under schema coverage the `"um"` loop never raises. -/
theorem umLoop_ok {V : Type} (env : Env) (message : Message V) (perms : Permissions)
    (hcov : ∀ nid meta, getPendingOrExistingEntityMetadata env nid = some meta →
        (lookupKey (initNonAuthorizedSchemas env.schemaDict) meta.template).isSome = true) :
    ∀ (entries : List (EntityData V)) (stash : Stash V),
      (umLoop env message perms stash entries).isOk = true := by
  intro entries
  induction entries with
  | nil => intro stash; rfl
  | cons e rest ih =>
      intro stash
      by_cases hc : (e.persistent && (env.entity e.networkId).isNone) = true
      · simp only [umLoop, hc, if_true]
        have hr := ih (stashPersistentSync stash message e)
        cases hrec : umLoop env message perms (stashPersistentSync stash message e) rest with
        | exn s' => rw [hrec] at hr; simp [JSResult.isOk] at hr
        | ok out s' =>
            obtain ⟨slots, st0, sa0⟩ := out
            rfl
      · rw [Bool.not_eq_true] at hc
        simp only [umLoop, hc, Bool.false_eq_true, if_false]
        obtain ⟨rb, hauth⟩ := authorizeOrSanitizeMessageData_ok env e
          message.from_session_id perms hcov
        obtain ⟨b, e'⟩ := rb
        simp only [hauth]
        cases b with
        | false =>
            have hr := ih stash
            cases hrec : umLoop env message perms stash rest with
            | exn s' => rw [hrec] at hr; simp [JSResult.isOk] at hr
            | ok out s' =>
                obtain ⟨slots, st0, sa0⟩ := out
                rfl
        | true =>
            have hr := ih stash
            cases hrec : umLoop env message perms stash rest with
            | exn s' => rw [hrec] at hr; simp [JSResult.isOk] at hr
            | ok out s' =>
                obtain ⟨slots, st0, sa0⟩ := out
                rfl

/-- C8 (amended): provided every template that metadata resolution can
produce has a registered schema entry (the spec's schema-registry invariant;
its violation is the configuration defect the spec says must fail loudly),
the gate completes on every message and stash: the failure modes of missing
presence, failed metadata resolution, and unknown schema indices all degrade
to deny/drop instead of raising. -/
theorem gate_no_throw {V : Type} (env : Env) (stash : Stash V) (message : Message V)
    (hcov : ∀ nid meta, getPendingOrExistingEntityMetadata env nid = some meta →
        (lookupKey (initNonAuthorizedSchemas env.schemaDict) meta.template).isSome = true) :
    (authorizeOrSanitizeMessage env stash message).isOk = true := by
  unfold authorizeOrSanitizeMessage
  by_cases h1 : (message.dataType == "u" && message.data.entry.isFirstSync
      && !message.data.entry.persistent) = true
  · simp [h1, JSResult.isOk]
  · rw [Bool.not_eq_true] at h1
    simp only [h1, Bool.false_eq_true, if_false]
    cases hp : env.presence message.from_session_id with
    | none => rfl
    | some perms =>
        by_cases hum : (message.dataType == "um") = true
        · simp only [hum, if_true]
          have hr := umLoop_ok env message perms hcov message.data.d stash
          cases hrec : umLoop env message perms stash message.data.d with
          | exn s' => rw [hrec] at hr; simp [JSResult.isOk] at hr
          | ok out s' =>
              obtain ⟨slots, fl⟩ := out
              rfl
        · rw [Bool.not_eq_true] at hum
          simp only [hum, Bool.false_eq_true, if_false]
          by_cases hu : (message.dataType == "u") = true
          · simp only [hu, if_true]
            by_cases hpn : (message.data.entry.persistent
                && (env.entity message.data.entry.networkId).isNone) = true
            · simp [hpn, JSResult.isOk]
            · rw [Bool.not_eq_true] at hpn
              simp only [hpn, Bool.false_eq_true, if_false]
              obtain ⟨rb, hauth⟩ := authorizeOrSanitizeMessageData_ok env
                message.data.entry message.from_session_id perms hcov
              obtain ⟨b, e'⟩ := rb
              simp only [hauth]
              cases b with
              | false => rfl
              | true => rfl
          · rw [Bool.not_eq_true] at hu
            simp only [hu, Bool.false_eq_true, if_false]
            by_cases hrm : (message.dataType == "r") = true
            · simp only [hrm, if_true]
              cases hmeta : getPendingOrExistingEntityMetadata env
                  message.data.entry.networkId with
              | none => rfl
              | some meta =>
                  simp only [hmeta]
                  by_cases hau : authorizeEntityManipulation meta
                      message.from_session_id perms = true
                  · simp [hau, JSResult.isOk]
                  · simp [hau, JSResult.isOk]
            · rw [Bool.not_eq_true] at hrm
              simp only [hrm, Bool.false_eq_true, if_false]
              rfl

/-- Environment for the C8 witness: every resolvable template is
`"x-media"`, which has a registered schema. -/
def envC8w : Env :=
  { schemaDict := [("x-media", schemaC3)]
    pending := fun _ => none
    entity := fun _ => some ⟨"x-media", "c"⟩
    presence := fun _ => some permsNone }

/-- A non-persistent `"u"` message from a non-creator, forcing the sanitize
path under `envC8w`. -/
def msgC8w : Message Nat :=
  { dataType := "u", from_session_id := "s1", clientId := "c1"
    data := { entry := { networkId := "n1", persistent := false, isFirstSync := false
                         components := [("0", some 1)], other := [] }
              d := [] } }

/-- C8 witness: the no-throw theorem applied under the covered registry. -/
theorem gate_no_throw_witness :
    (authorizeOrSanitizeMessage envC8w emptyStash msgC8w).isOk = true :=
  gate_no_throw envC8w emptyStash msgC8w (by
    intro nid meta h
    simp [getPendingOrExistingEntityMetadata, envC8w] at h
    subst h
    rfl)

/-- Environment for the C8 and C10 counterexamples: entity `"n1"` has
template `"foo-thing"`, which matches no permission suffix and has no
registered schema; the sender is not the creator. -/
def envC8cex : Env :=
  { schemaDict := [], pending := fun _ => none
    entity := fun nid => if nid = "n1" then some ⟨"foo-thing", "creator1"⟩ else none
    presence := fun _ => some permsNone }

/-- A non-persistent `"u"` update with a non-empty component map for
`"n1"`. -/
def msgC8cex : Message Nat :=
  { dataType := "u", from_session_id := "s1", clientId := "c1"
    data := { entry := { networkId := "n1", persistent := false, isFirstSync := false
                         components := [("0", some 1)], other := [] }
              d := [] } }

/-- C8 counterexample: with a resolvable entity whose template has no
registered schema entry and an unauthorized sender, the sanitize step
evaluates `undefined.includes` and the authorization path raises instead of
degrading to deny/drop. -/
theorem gate_throw_on_missing_schema_cex :
    lookupKey (initNonAuthorizedSchemas envC8cex.schemaDict) "foo-thing" = none ∧
    getPendingOrExistingEntityMetadata envC8cex "n1" = some ⟨"foo-thing", "creator1"⟩ ∧
    authorizeOrSanitizeMessage envC8cex emptyStash msgC8cex = .exn emptyStash ∧
    (authorizeOrSanitizeMessage envC8cex emptyStash msgC8cex).isOk = false :=
  ⟨rfl, rfl, rfl, rfl⟩

/-! ### C10 — applyPersistentSync frame behavior -/

/-- A completed gate run on a `"u"` message can only have written the stash
at the message's own networkId. -/
theorem gate_stash_frame {V : Type} (env : Env) (stash : Stash V) (m : Message V)
    {r : Option (Message V)} {stash' : Stash V}
    (hdt : m.dataType = "u")
    (hok : authorizeOrSanitizeMessage env stash m = .ok r stash') :
    ∀ j, j ≠ m.data.entry.networkId → stash' j = stash j := by
  intro j hj
  unfold authorizeOrSanitizeMessage at hok
  by_cases h1 : (m.dataType == "u" && m.data.entry.isFirstSync
      && !m.data.entry.persistent) = true
  · simp only [h1, if_true] at hok
    injection hok with h1' h2'
    rw [← h2']
  · rw [Bool.not_eq_true] at h1
    simp only [h1, Bool.false_eq_true, if_false] at hok
    cases hp : env.presence m.from_session_id with
    | none =>
        simp only [hp] at hok
        injection hok with h1' h2'
        rw [← h2']
    | some perms =>
        simp only [hp] at hok
        have hum : (m.dataType == "um") = false := by rw [hdt]; rfl
        have hu : (m.dataType == "u") = true := by rw [hdt]; rfl
        simp only [hum, Bool.false_eq_true, if_false, hu, if_true] at hok
        by_cases hpn : (m.data.entry.persistent
            && (env.entity m.data.entry.networkId).isNone) = true
        · simp only [hpn, if_true] at hok
          injection hok with h1' h2'
          rw [← h2']
          simp [stashUpdate, hj]
        · rw [Bool.not_eq_true] at hpn
          simp only [hpn, Bool.false_eq_true, if_false] at hok
          cases hauth : authorizeOrSanitizeMessageData env m.data.entry
              m.from_session_id perms with
          | error e =>
              simp only [hauth] at hok
              exact (JSResult.noConfusion hok)
          | ok be =>
              obtain ⟨b, e'⟩ := be
              cases b with
              | false =>
                  simp only [hauth] at hok
                  injection hok with h1' h2'
                  rw [← h2']
              | true =>
                  simp only [hauth] at hok
                  injection hok with h1' h2'
                  rw [← h2']

/-- C10 (amended): `applyPersistentSync` on a networkId with no stashed entry
is a no-op — it delivers nothing to `onData` and returns the stash mapping
unchanged; on a networkId whose stashed entry is a gate-produced one (a `"u"`
message keyed by its own networkId), a run that completes without a sanitize
exception removes exactly that entry and leaves every other networkId's entry
unchanged.  (If the replay raises, nothing is removed — see the
counterexample.) -/
theorem applyPersistentSync_frame {V : Type} (env : Env) (stash : Stash V)
    (networkId : String) :
    (stash networkId = none →
        applyPersistentSync env stash networkId = .ok none stash) ∧
    (∀ m r stash', stash networkId = some m → m.dataType = "u" →
        m.data.entry.networkId = networkId →
        applyPersistentSync env stash networkId = .ok r stash' →
        stash' networkId = none ∧ ∀ j, j ≠ networkId → stash' j = stash j) := by
  constructor
  · intro h
    simp only [applyPersistentSync, h]
  · intro m r stash' hm hdt hnid happ
    simp only [applyPersistentSync, hm] at happ
    cases hg : authorizeOrSanitizeMessage env stash m with
    | exn s1 => simp only [hg] at happ; simp at happ
    | ok delivered s1 =>
        simp only [hg] at happ
        injection happ with h1 h2
        subst h2
        constructor
        · simp [stashRemove]
        · intro j hj
          have hfr := gate_stash_frame env stash m hdt hg j (by rw [hnid]; exact hj)
          simp only [stashRemove, if_neg hj]
          exact hfr

/-- C10 witness, part 1 input: an id with no stash entry; part 2 input: the
C5 stash entry replayed under the materialized environment. -/
theorem applyPersistentSync_frame_witness :
    (applyPersistentSync (V := Nat) envC4 emptyStash "nx" = .ok none emptyStash) ∧
    ((stashRemove (stashUpdate emptyStash "n1" msgC5) "n1") "n1" = none ∧
      ∀ j, j ≠ "n1" → (stashRemove (stashUpdate emptyStash "n1" msgC5) "n1") j
        = (stashUpdate emptyStash "n1" msgC5) j) :=
  ⟨(applyPersistentSync_frame (V := Nat) envC4 emptyStash "nx").1 rfl,
   (applyPersistentSync_frame envC5' (stashUpdate emptyStash "n1" msgC5) "n1").2
     msgC5 (some (some msgC5)) (stashRemove (stashUpdate emptyStash "n1" msgC5) "n1")
     (by decide) rfl rfl rfl⟩

/-- A persistent update stashed for `"n1"`, whose replay under `envC8cex`
must sanitize a template with no registered schema. -/
def msgC10P : Message Nat :=
  { dataType := "u", from_session_id := "s1", clientId := "c1"
    data := { entry := { networkId := "n1", persistent := true, isFirstSync := false
                         components := [("0", some 5)], other := [] }
              d := [] } }

/-- C10 counterexample: when the replayed gate run raises (unregistered
template, unauthorized sender, non-empty components), `applyPersistentSync`
escapes before the `delete`, so the stashed entry for the networkId is not
removed. -/
theorem applyPersistentSync_throw_keeps_entry_cex :
    applyPersistentSync envC8cex (stashUpdate emptyStash "n1" msgC10P) "n1"
      = .exn (stashUpdate emptyStash "n1" msgC10P) ∧
    stashUpdate emptyStash "n1" msgC10P "n1" = some msgC10P :=
  ⟨rfl, by decide⟩

end JelMpl
